import Mathlib

/-!
Verification of the offline-first synchronization engine of the combust
fuel-tracking application (src/src/services/fuelService.ts, with its local
store src/src/lib/db.ts and the owner-identity map of the auth provider).

Shallow embedding conventions:
* IndexedDB records, Supabase rows and sync-queue entries become Lean
  structures mirroring the TypeScript shapes field by field.
* The three persistent stores (IndexedDB entry table, localStorage sync
  queue, Supabase table) become one explicit state record threaded through
  every operation.
* Supabase UUIDs are modelled as naturals drawn from a counter in the
  remote state; remote user ids stay strings.  ISO timestamp strings are
  modelled as naturals.  JavaScript numbers are modelled as integers.
* A remote call that can throw takes an explicit Bool oracle for the
  outcome of that call; loops that make one fallible remote call per
  element take a Nat-indexed oracle.  A thrown remote error is modelled by
  taking the catch branch of the corresponding source function, which is
  exactly what the try/catch wrappers in fuelService.ts do.
* JavaScript truthiness tests on optional numbers and strings are modelled
  by the explicit helpers below.
-/

/-- JS truthiness of an optional number (`undefined` and `0` are falsy). -/
def truthyNum : Option Nat → Bool
  | none => false
  | some n => n != 0

/-- JS truthiness of an optional string (`undefined` and the empty string
are falsy). -/
def truthyStr : Option String → Bool
  | none => false
  | some s => s != ""

/-- Truthiness of a Supabase uuid modelled as a natural: generated uuid
strings are never empty, so presence is truthiness. -/
def truthyUuid : Option Nat → Bool := Option.isSome

/-- The domain payload of a fuel entry: `Omit FuelEntry of id and userId`
restricted to the five domain fields that the sync engine reads from it. -/
structure Draft where
  date : String
  amountPaid : Int
  odometerReading : Int
  fuelFilled : Int
  fuelStation : String
  deriving DecidableEq

/-- A record of the local IndexedDB entry table, i.e. the `LocalEntry`
shape of fuelService.ts (`FuelEntry` plus sync metadata). -/
structure LocalEntry where
  id : Option Nat := none
  userId : Nat
  supabaseUserId : Option String := none
  date : String
  amountPaid : Int
  odometerReading : Int
  fuelFilled : Int
  fuelStation : String
  supabaseId : Option Nat := none
  syncedAt : Option Nat := none
  isDeleted : Bool := false
  deriving DecidableEq

/-- A row of the Supabase `fuel_entries` table (`FuelEntryDB`). -/
structure RemoteRow where
  id : Nat
  user_id : String
  date : String
  amount_paid : Int
  odometer_reading : Int
  fuel_filled : Int
  fuel_station : String
  local_id : Option Nat := none
  is_deleted : Bool
  synced_at : Option Nat := none
  updated_at : Option Nat := none
  deriving DecidableEq

/-- The insert payload `Omit FuelEntryDB of id, created_at, updated_at`. -/
structure RemoteDraft where
  user_id : String
  date : String
  amount_paid : Int
  odometer_reading : Int
  fuel_filled : Int
  fuel_station : String
  local_id : Option Nat
  is_deleted : Bool
  synced_at : Option Nat
  deriving DecidableEq

/-- The `type` discriminator of a sync-queue item. -/
inductive SyncOpType where
  | create
  | update
  | delete
  deriving DecidableEq

/-- A `SyncQueueItem` of fuelService.ts. -/
structure SyncQueueItem where
  type : SyncOpType
  localId : Option Nat := none
  supabaseId : Option Nat := none
  data : Option Draft := none
  timestamp : Nat
  deriving DecidableEq

/-- The local IndexedDB entry table: the stored records plus the
auto-increment key generator (IndexedDB generators start at 1). -/
structure LocalStore where
  entries : List LocalEntry
  nextId : Nat
  deriving DecidableEq

/-- The Supabase `fuel_entries` table plus the uuid source for inserts. -/
structure RemoteState where
  rows : List RemoteRow
  nextId : Nat
  deriving DecidableEq

namespace localDb

/-- db.ts getAllEntries: all records of the `userId` index for one user. -/
def getAllEntries (store : LocalStore) (userId : Nat) : List LocalEntry :=
  store.entries.filter (fun e => e.userId == userId)

/-- db.ts addEntry: `store.add` assigns the next auto-increment key. -/
def addEntry (store : LocalStore) (e : LocalEntry) : Nat × LocalStore :=
  let i := store.nextId
  (i, { entries := store.entries ++ [{ e with id := some i }], nextId := i + 1 })

/-- IndexedDB `store.put`: full replace of the record at its key; a put at
an unused explicit key inserts and pulls the key generator past it; a put
without a key behaves like an add. -/
def putEntry (store : LocalStore) (e : LocalEntry) : LocalStore :=
  match e.id with
  | some i =>
    if store.entries.any (fun x => x.id == some i) then
      { store with entries := store.entries.map (fun x => if x.id == some i then e else x) }
    else
      { store with entries := store.entries ++ [e], nextId := max store.nextId (i + 1) }
  | none => (addEntry store e).2

/-- db.ts updateEntry is IndexedDB put. -/
def updateEntry (store : LocalStore) (e : LocalEntry) : LocalStore :=
  putEntry store e

/-- db.ts deleteEntry: delete by key. -/
def deleteEntry (store : LocalStore) (id : Nat) : LocalStore :=
  { store with entries := store.entries.filter (fun e => !(e.id == some id)) }

/-- db.ts clearAllEntries: cursor over the `userId` index deleting every
record of that user. -/
def clearAllEntries (store : LocalStore) (userId : Nat) : LocalStore :=
  { store with entries := store.entries.filter (fun e => !(e.userId == userId)) }

end localDb

/-- Insert into the remote table: Supabase assigns a fresh uuid and returns
the inserted row (`insert(...).select().single()`). -/
def RemoteState.insertRow (rs : RemoteState) (d : RemoteDraft) : RemoteRow × RemoteState :=
  let row : RemoteRow :=
    { id := rs.nextId
      user_id := d.user_id
      date := d.date
      amount_paid := d.amount_paid
      odometer_reading := d.odometer_reading
      fuel_filled := d.fuel_filled
      fuel_station := d.fuel_station
      local_id := d.local_id
      is_deleted := d.is_deleted
      synced_at := d.synced_at
      updated_at := none }
  (row, { rows := rs.rows ++ [row], nextId := rs.nextId + 1 })

/-- Remote `update` of the domain fields, filtered by row id and owner. -/
def RemoteState.updateFields (rs : RemoteState) (rid : Nat) (uid : String) (d : Draft)
    (now : Nat) : RemoteState :=
  { rs with rows := rs.rows.map (fun r =>
      if r.id == rid && r.user_id == uid then
        { r with
          date := d.date
          amount_paid := d.amountPaid
          odometer_reading := d.odometerReading
          fuel_filled := d.fuelFilled
          fuel_station := d.fuelStation
          updated_at := some now }
      else r) }

/-- Remote soft delete: `update is_deleted true` filtered by row id and
owner. -/
def RemoteState.softDelete (rs : RemoteState) (rid : Nat) (uid : String) (now : Nat) :
    RemoteState :=
  { rs with rows := rs.rows.map (fun r =>
      if r.id == rid && r.user_id == uid then
        { r with is_deleted := true, updated_at := some now }
      else r) }

/-- `maybeSingle()`: one matching row yields it; zero rows yield null; more
than one row is an error whose ignored destructuring also yields null. -/
def maybeSingle (l : List RemoteRow) : Option RemoteRow :=
  match l with
  | [x] => some x
  | _ => none

/-- The combined persistent state the sync engine acts on: local entry
table, localStorage sync queue (well-formed contents; arbitrary raw
contents are modelled separately below), and the remote table. -/
structure SyncState where
  store : LocalStore
  queue : List SyncQueueItem
  remote : RemoteState
  deriving DecidableEq

/-- fuelService.ts removeFromSyncQueue: keep an item unless a truthy
localId matches its localId or a truthy supabaseId matches its supabaseId. -/
def removeFromSyncQueue (queue : List SyncQueueItem) (localId supabaseId : Option Nat) :
    List SyncQueueItem :=
  queue.filter (fun item =>
    !((truthyNum localId && item.localId == localId) ||
      (truthyUuid supabaseId && item.supabaseId == supabaseId)))

/-- fuelService.ts supabaseToLocal. -/
def supabaseToLocal (entry : RemoteRow) (localUserId : Nat) : LocalEntry :=
  { id := entry.local_id
    supabaseId := some entry.id
    userId := localUserId
    supabaseUserId := some entry.user_id
    date := entry.date
    amountPaid := entry.amount_paid
    odometerReading := entry.odometer_reading
    fuelFilled := entry.fuel_filled
    fuelStation := entry.fuel_station
    syncedAt := entry.synced_at
    isDeleted := entry.is_deleted }

/-- fuelService.ts localToSupabase: stamps `is_deleted` false and a fresh
`synced_at`. -/
def localToSupabase (entry : LocalEntry) (supabaseUserId : String) (now : Nat) : RemoteDraft :=
  { user_id := supabaseUserId
    date := entry.date
    amount_paid := entry.amountPaid
    odometer_reading := entry.odometerReading
    fuel_filled := entry.fuelFilled
    fuel_station := entry.fuelStation
    local_id := entry.id
    is_deleted := false
    synced_at := some now }

/-- The five domain fields of a local entry, as enqueued in `data`. -/
def draftOf (e : LocalEntry) : Draft :=
  { date := e.date
    amountPaid := e.amountPaid
    odometerReading := e.odometerReading
    fuelFilled := e.fuelFilled
    fuelStation := e.fuelStation }

/-- The heuristic identity key `date, amount, odometer, volume` (the source
joins these with pipes into one string; the tuple is the same information). -/
def identityKey (date : String) (amount odo fuel : Int) : String × Int × Int × Int :=
  (date, amount, odo, fuel)

/-- Identity key of a remote row. -/
def rowKey (r : RemoteRow) : String × Int × Int × Int :=
  identityKey r.date r.amount_paid r.odometer_reading r.fuel_filled

/-- fuelService.ts findLocalBySupabaseId: cursor over the whole entry
table, first record whose supabaseId matches. -/
def findLocalBySupabaseId (store : LocalStore) (sid : Nat) : Option LocalEntry :=
  store.entries.find? (fun e => e.supabaseId == some sid)

/-- fuelService.ts updateLocalWithSupabaseId: read the record at the local
key and, when present, stamp supabaseId and syncedAt onto it. -/
def updateLocalWithSupabaseId (store : LocalStore) (localId : Nat) (sid : Nat)
    (syncedAt : Option Nat) : LocalStore :=
  match store.entries.find? (fun e => e.id == some localId) with
  | some entry => localDb.putEntry store { entry with supabaseId := some sid, syncedAt := syncedAt }
  | none => store

/-- fuelService.ts createLocalFromRemote: add a fresh local record built
from remote data (no isDeleted field is stored). -/
def createLocalFromRemote (store : LocalStore) (entry : LocalEntry) (sid : Nat)
    (localUserId : Nat) : Nat × LocalStore :=
  localDb.addEntry store
    { userId := localUserId
      date := entry.date
      amountPaid := entry.amountPaid
      odometerReading := entry.odometerReading
      fuelFilled := entry.fuelFilled
      fuelStation := entry.fuelStation
      supabaseId := some sid
      syncedAt := entry.syncedAt }

/-- fuelService.ts updateLocalEntryFull: IndexedDB put of the given
record. -/
def updateLocalEntryFull (store : LocalStore) (entry : LocalEntry) : LocalStore :=
  localDb.putEntry store entry

/-- One iteration of the syncDeletionsToLocal loop: delete the local
counterpart of one remote-deleted row, matching first by supabaseId and
then, for never-linked records, by the identity fields, against the
snapshot localEntries; deletion requires a truthy local id. -/
def deleteMatchedLocal (localEntries : List LocalEntry) (acc : SyncState)
    (de : RemoteRow) : SyncState :=
  let byId := localEntries.find? (fun e => e.supabaseId == some de.id)
  let localToDelete :=
    match byId with
    | some e => some e
    | none =>
      localEntries.find? (fun e =>
        !e.supabaseId.isSome && e.date == de.date && e.amountPaid == de.amount_paid &&
          e.odometerReading == de.odometer_reading && e.fuelFilled == de.fuel_filled)
  match localToDelete with
  | some e =>
    match e.id with
    | some i => if i != 0 then { acc with store := localDb.deleteEntry acc.store i } else acc
    | none => acc
  | none => acc

/-- fuelService.ts syncDeletionsToLocal: against a snapshot of the local
records of this user, run deleteMatchedLocal for every remote-deleted
row. -/
def syncDeletionsToLocal (s : SyncState) (deletedEntries : List RemoteRow)
    (localUserId : Nat) : SyncState :=
  let localEntries := localDb.getAllEntries s.store localUserId
  deletedEntries.foldl (deleteMatchedLocal localEntries) s

/-- One iteration of the syncToLocal loop: a pulled row already linked by
supabaseId replaces the linked local record in place; an unlinked row is
re-created locally unless its identity key appears in the deleted set. -/
def pullRemoteEntry (deletedSet : List (String × Int × Int × Int)) (localUserId : Nat)
    (acc : SyncState) (re : RemoteRow) : SyncState :=
  let localEntry := supabaseToLocal re localUserId
  match findLocalBySupabaseId acc.store re.id with
  | some existingLocal =>
    let replaced : LocalEntry :=
      { id := existingLocal.id
        userId := localUserId
        date := localEntry.date
        amountPaid := localEntry.amountPaid
        odometerReading := localEntry.odometerReading
        fuelFilled := localEntry.fuelFilled
        fuelStation := localEntry.fuelStation
        supabaseId := some re.id
        syncedAt := re.synced_at }
    { acc with store := updateLocalEntryFull acc.store replaced }
  | none =>
    if !(deletedSet.contains (rowKey re)) then
      { acc with store := (createLocalFromRemote acc.store localEntry re.id localUserId).2 }
    else acc

/-- fuelService.ts syncToLocal: compute the deleted identity-key set of
this owner from the remote store, then run pullRemoteEntry over the pulled
active rows. -/
def syncToLocal (s : SyncState) (remoteEntries : List RemoteRow) (localUserId : Nat)
    (supabaseUserId : String) : SyncState :=
  let deletedSet :=
    (s.remote.rows.filter (fun r => r.user_id == supabaseUserId && r.is_deleted)).map rowKey
  remoteEntries.foldl (pullRemoteEntry deletedSet localUserId) s

/-- Insert a remote row into a list sorted by date descending (models the
date-descending ordering of the remote select in getAllEntries). -/
def insertByDateDesc (r : RemoteRow) : List RemoteRow → List RemoteRow
  | [] => [r]
  | x :: xs => if x.date ≤ r.date then r :: x :: xs else x :: insertByDateDesc r xs

/-- Sort remote rows by date descending. -/
def sortByDateDesc (l : List RemoteRow) : List RemoteRow :=
  l.foldr insertByDateDesc []

/-- fuelService.ts getAllEntries: when online with a truthy remote owner id
and a successful fetch, pull the active remote rows (date descending),
first prune remote deletions locally, then fold the active rows into the
local store, and return the mapped remote view.  A throwing fetch is
caught and, like the offline and no-owner cases, falls back to the local
records with soft-deleted ones excluded; the fallback leaves the state
unchanged. -/
def getAllEntries (s : SyncState) (localUserId : Nat) (supabaseUserId : Option String)
    (online fetchOk : Bool) : List LocalEntry × SyncState :=
  let fallback : List LocalEntry × SyncState :=
    ((localDb.getAllEntries s.store localUserId).filter (fun e => !e.isDeleted), s)
  match supabaseUserId with
  | some uid =>
    if online && uid != "" && fetchOk then
      let data := sortByDateDesc (s.remote.rows.filter (fun r => r.user_id == uid && !r.is_deleted))
      let deletedData := s.remote.rows.filter (fun r => r.user_id == uid && r.is_deleted)
      let s1 := if deletedData.length > 0 then syncDeletionsToLocal s deletedData localUserId else s
      let s2 := syncToLocal s1 data localUserId uid
      (data.map (fun r => supabaseToLocal r localUserId), s2)
    else fallback
  | none => fallback

/-- fuelService.ts createEntry: always insert locally first; then, online
with a truthy remote owner id, attempt the remote insert (on success stamp
supabaseId and syncedAt locally and on the returned record, on a thrown
error enqueue a create item); offline with a truthy owner id, enqueue the
create item directly. -/
def createEntry (s : SyncState) (entry : Draft) (localUserId : Nat)
    (supabaseUserId : Option String) (online insertOk : Bool) (now : Nat) :
    LocalEntry × SyncState :=
  let localEntry : LocalEntry :=
    { userId := localUserId
      date := entry.date
      amountPaid := entry.amountPaid
      odometerReading := entry.odometerReading
      fuelFilled := entry.fuelFilled
      fuelStation := entry.fuelStation }
  let insRes := localDb.addEntry s.store localEntry
  let localId := insRes.1
  let savedEntry : LocalEntry := { localEntry with id := some localId }
  let s1 : SyncState := { s with store := insRes.2 }
  let queueItem : SyncQueueItem :=
    { type := .create, localId := some localId, data := some entry, timestamp := now }
  if online && truthyStr supabaseUserId then
    if insertOk then
      let uid := supabaseUserId.getD ""
      let supabaseData := localToSupabase savedEntry uid now
      let ins := s1.remote.insertRow supabaseData
      let row := ins.1
      ({ savedEntry with supabaseId := some row.id, syncedAt := row.synced_at },
        { s1 with
          remote := ins.2
          store := updateLocalWithSupabaseId s1.store localId row.id row.synced_at })
    else
      (savedEntry, { s1 with queue := s1.queue ++ [queueItem] })
  else if truthyStr supabaseUserId then
    (savedEntry, { s1 with queue := s1.queue ++ [queueItem] })
  else
    (savedEntry, s1)

/-- fuelService.ts updateEntry: always put the base record locally first
(an IndexedDB put replaces the whole record, so the stored sync metadata
fields are dropped); then, online with a truthy owner id and a truthy
supabaseId on the record, attempt the remote update, enqueueing an update
item carrying both ids on a thrown error; offline with both ids truthy,
enqueue directly. -/
def updateEntry (s : SyncState) (entry : LocalEntry) (supabaseUserId : Option String)
    (online updateOk : Bool) (now : Nat) : SyncState :=
  let baseRecord : LocalEntry :=
    { id := entry.id
      userId := entry.userId
      date := entry.date
      amountPaid := entry.amountPaid
      odometerReading := entry.odometerReading
      fuelFilled := entry.fuelFilled
      fuelStation := entry.fuelStation }
  let s1 : SyncState := { s with store := localDb.updateEntry s.store baseRecord }
  let queueItem : SyncQueueItem :=
    { type := .update
      localId := entry.id
      supabaseId := entry.supabaseId
      data := some (draftOf entry)
      timestamp := now }
  if online && truthyStr supabaseUserId && truthyUuid entry.supabaseId then
    if updateOk then
      let remote1 :=
        s1.remote.updateFields (entry.supabaseId.getD 0) (supabaseUserId.getD "")
          (draftOf entry) now
      { s1 with remote := remote1 }
    else
      { s1 with queue := s1.queue ++ [queueItem] }
  else if truthyStr supabaseUserId && truthyUuid entry.supabaseId then
    { s1 with queue := s1.queue ++ [queueItem] }
  else s1

/-- fuelService.ts deleteEntry: always hard-delete locally first; then,
online with a truthy owner id and a truthy supabaseId, attempt the remote
soft delete, enqueueing a delete item on a thrown error; offline with both
truthy, enqueue directly. -/
def deleteEntry (s : SyncState) (id : Nat) (supabaseId : Option Nat)
    (supabaseUserId : Option String) (online deleteOk : Bool) (now : Nat) : SyncState :=
  let s1 : SyncState := { s with store := localDb.deleteEntry s.store id }
  let queueItem : SyncQueueItem :=
    { type := .delete, localId := some id, supabaseId := supabaseId, timestamp := now }
  if online && truthyStr supabaseUserId && truthyUuid supabaseId then
    if deleteOk then
      { s1 with remote := s1.remote.softDelete (supabaseId.getD 0) (supabaseUserId.getD "") now }
    else
      { s1 with queue := s1.queue ++ [queueItem] }
  else if truthyStr supabaseUserId && truthyUuid supabaseId then
    { s1 with queue := s1.queue ++ [queueItem] }
  else s1

/-- One iteration of the processSyncQueue loop for one queue item with the
outcome `ok` of its remote call.  A create item with truthy data and
localId replays the payload captured at enqueue time; an update or delete
item with the required ids replays against the remote by supabaseId.  An
item whose guard fails makes no remote call and falls through to the
removal.  A successful (or skipped) replay removes from the stored queue
every item matching the processed item ids; a thrown remote call leaves
the state untouched so the item stays for retry. -/
def processItem (localUserId : Nat) (supabaseUserId : String) (now : Nat)
    (s : SyncState) (item : SyncQueueItem) (ok : Bool) : SyncState :=
  let removed : SyncState :=
    { s with queue := removeFromSyncQueue s.queue item.localId item.supabaseId }
  match item.type with
  | .create =>
    match item.data, item.localId with
    | some d, some lid =>
      if lid != 0 then
        if ok then
          let payload : LocalEntry :=
            { id := some lid
              userId := localUserId
              date := d.date
              amountPaid := d.amountPaid
              odometerReading := d.odometerReading
              fuelFilled := d.fuelFilled
              fuelStation := d.fuelStation }
          let ins := s.remote.insertRow (localToSupabase payload supabaseUserId now)
          let row := ins.1
          let s1 : SyncState :=
            { s with
              remote := ins.2
              store := updateLocalWithSupabaseId s.store lid row.id row.synced_at }
          { s1 with queue := removeFromSyncQueue s1.queue item.localId item.supabaseId }
        else s
      else removed
    | _, _ => removed
  | .update =>
    match item.data, item.supabaseId with
    | some d, some sid =>
      if ok then
        let s1 : SyncState :=
          { s with remote := s.remote.updateFields sid supabaseUserId d now }
        { s1 with queue := removeFromSyncQueue s1.queue item.localId item.supabaseId }
      else s
    | _, _ => removed
  | .delete =>
    match item.supabaseId with
    | some sid =>
      if ok then
        let s1 : SyncState := { s with remote := s.remote.softDelete sid supabaseUserId now }
        { s1 with queue := removeFromSyncQueue s1.queue item.localId item.supabaseId }
      else s
    | none => removed

/-- fuelService.ts processSyncQueue: no-op when offline or when the queue
is empty; otherwise iterate a snapshot of the queue in insertion order,
applying processItem with the oracle outcome of each item position. -/
def processSyncQueue (s : SyncState) (localUserId : Nat) (supabaseUserId : String)
    (online : Bool) (ok : Nat → Bool) (now : Nat) : SyncState :=
  if !online then s
  else
    let queue := s.queue
    if queue.length == 0 then s
    else
      queue.enum.foldl (fun acc p => processItem localUserId supabaseUserId now acc p.2 (ok p.1)) s

/-- One iteration of the pushUnsyncedEntries loop for one unsynced local
entry.  The two owner-scoped identity-key lookups are maybeSingle selects
whose errors the source ignores; a matching deleted row deletes the entry
locally, a matching active row just links it, otherwise the entry is
inserted remotely (`insOk` is the outcome of that insert; a thrown insert
is caught and leaves the state untouched). -/
def pushEntryStep (supabaseUserId : String) (now : Nat) (s : SyncState)
    (entry : LocalEntry) (insOk : Bool) : SyncState :=
  let matchesIdentity : RemoteRow → Bool := fun r =>
    r.user_id == supabaseUserId && r.date == entry.date && r.amount_paid == entry.amountPaid &&
      r.odometer_reading == entry.odometerReading && r.fuel_filled == entry.fuelFilled
  let deletedData := maybeSingle (s.remote.rows.filter (fun r => matchesIdentity r && r.is_deleted))
  match deletedData with
  | some _ =>
    match entry.id with
    | some i => if i != 0 then { s with store := localDb.deleteEntry s.store i } else s
    | none => s
  | none =>
    let existingData :=
      maybeSingle (s.remote.rows.filter (fun r => matchesIdentity r && !r.is_deleted))
    match existingData with
    | some ex =>
      match entry.id with
      | some i =>
        if i != 0 then { s with store := updateLocalWithSupabaseId s.store i ex.id ex.synced_at }
        else s
      | none => s
    | none =>
      if insOk then
        let ins := s.remote.insertRow (localToSupabase entry supabaseUserId now)
        let row := ins.1
        let s1 : SyncState := { s with remote := ins.2 }
        match entry.id with
        | some i =>
          if i != 0 then
            { s1 with store := updateLocalWithSupabaseId s1.store i row.id row.synced_at }
          else s1
        | none => s1
      else s

/-- fuelService.ts pushUnsyncedEntries: snapshot the local records of this
user that have no supabaseId and are not soft-deleted, then run
pushEntryStep on each with the oracle outcome of its position. -/
def pushUnsyncedEntries (s : SyncState) (localUserId : Nat) (supabaseUserId : String)
    (insOk : Nat → Bool) (now : Nat) : SyncState :=
  let unsyncedEntries :=
    (localDb.getAllEntries s.store localUserId).filter
      (fun e => !e.supabaseId.isSome && !e.isDeleted)
  unsyncedEntries.enum.foldl (fun acc p => pushEntryStep supabaseUserId now acc p.2 (insOk p.1)) s

/-- fuelService.ts fullSync: when online, drain the queue, push unsynced
local entries, then pull the remote state via getAllEntries (whose
returned list is discarded). -/
def fullSync (s : SyncState) (localUserId : Nat) (supabaseUserId : String) (online : Bool)
    (okQueue okPush : Nat → Bool) (fetchOk : Bool) (now : Nat) : SyncState :=
  if !online then s
  else
    let s1 := processSyncQueue s localUserId supabaseUserId online okQueue now
    let s2 := pushUnsyncedEntries s1 localUserId supabaseUserId okPush now
    (getAllEntries s2 localUserId (some supabaseUserId) online fetchOk).2

/-- fuelService.ts clearLocalEntries (sign-out): delete all local records
of this user and write an empty sync queue. -/
def clearLocalEntries (s : SyncState) (localUserId : Nat) : SyncState :=
  { s with store := localDb.clearAllEntries s.store localUserId, queue := [] }

/-- The owner-identity map persisted under combust_local_user_map in the
auth provider: remote owner uuid to local owner id, as an association
list. -/
abbrev UserMap := List (String × Nat)

/-- Read `map at sid` on the stored object. -/
def lookupUserMap (map : UserMap) (sid : String) : Option Nat :=
  (List.find? (fun p => p.1 == sid) map).map (fun p => p.2)

/-- Write `map at sid := v` on the stored object. -/
def writeUserMap (map : UserMap) (sid : String) (v : Nat) : UserMap :=
  if (List.find? (fun p => p.1 == sid) map).isSome then
    List.map (fun p => if p.1 == sid then (sid, v) else p) map
  else
    List.append map [(sid, v)]

/-- AuthContext getOrCreateLocalUserId: return the mapped local id if its
value is truthy, otherwise store and return a fresh Date.now-based id. -/
def getOrCreateLocalUserId (map : UserMap) (sid : String) (newLocalId : Nat) :
    Nat × UserMap :=
  match lookupUserMap map sid with
  | some v => if v != 0 then (v, map) else (newLocalId, writeUserMap map sid newLocalId)
  | none => (newLocalId, writeUserMap map sid newLocalId)

/-- The process-wide persisted state visible to sign-out: the sync engine
state plus the owner-identity map, which lives under its own localStorage
key that clearLocalEntries never touches. -/
structure AppState where
  sync : SyncState
  userMap : UserMap
  deriving DecidableEq

/-- Sign-out as the auth provider performs it on the persisted data:
clearLocalEntries for the signed-out owner; the owner-identity map is not
written. -/
def signOutClear (app : AppState) (localUserId : Nat) : AppState :=
  { app with sync := clearLocalEntries app.sync localUserId }

/-!
Raw sync-queue storage.  The main model above takes the queue storage to
hold a well-formed serialized item list, which is all the engine itself
ever writes.  getSyncQueue, however, reads arbitrary localStorage text, so
its totality claims need a model of the reachable distinctions of that
text: key absent, empty string (falsy in JS), text on which JSON.parse
throws, text parsing to a serialized item array, and text parsing to some
other JSON value (which JSON.parse returns and the unchecked cast passes
through).
-/

/-- The contents of localStorage under combust_sync_queue, abstracted to
the five cases getSyncQueue can distinguish. -/
inductive QueueText where
  | absent
  | emptyText
  | malformed
  | jsonList (items : List SyncQueueItem)
  | jsonOther
  deriving DecidableEq

/-- The JavaScript value getSyncQueue evaluates to: an item array, or the
non-array JSON value that the unchecked cast lets through. -/
inductive JsQueueVal where
  | list (items : List SyncQueueItem)
  | nonArray
  deriving DecidableEq

/-- fuelService.ts getSyncQueue on raw storage: a missing key and the empty
string are falsy and yield the empty array, a JSON.parse throw is caught
and yields the empty array, and otherwise whatever JSON.parse returns is
returned unchecked. -/
def getSyncQueueRaw : QueueText → JsQueueVal
  | QueueText.absent => JsQueueVal.list []
  | QueueText.emptyText => JsQueueVal.list []
  | QueueText.malformed => JsQueueVal.list []
  | QueueText.jsonList items => JsQueueVal.list items
  | QueueText.jsonOther => JsQueueVal.nonArray

/-- fuelService.ts addToSyncQueue on raw storage: push onto the value read
by getSyncQueue and save it.  Pushing onto a non-array JavaScript value
throws a TypeError, modelled as none. -/
def addToSyncQueueRaw (t : QueueText) (item : SyncQueueItem) : Option QueueText :=
  match getSyncQueueRaw t with
  | JsQueueVal.list items => some (QueueText.jsonList (items ++ [item]))
  | JsQueueVal.nonArray => none

/-- The queue snapshot processSyncQueue iterates over, read from raw
storage: iterating a non-array value with for-of throws a TypeError,
modelled as none (the length-zero early return does not fire first because
the length of a non-array is undefined, which is not strictly equal to
zero). -/
def drainSnapshotRaw (t : QueueText) : Option (List SyncQueueItem) :=
  match getSyncQueueRaw t with
  | JsQueueVal.list items => some items
  | JsQueueVal.nonArray => none

/-- The initial persisted state: empty local table with the IndexedDB key
generator at 1, empty queue, empty remote table. -/
def emptyState : SyncState :=
  { store := { entries := [], nextId := 1 }
    queue := []
    remote := { rows := [], nextId := 1 } }

/-- One operation of the sync engine, with the call arguments and remote
oracles it needs, for stating state invariants over every operation. -/
inductive EngineOp where
  | createOp (entry : Draft) (localUserId : Nat) (supabaseUserId : Option String)
      (online insertOk : Bool) (now : Nat)
  | updateOp (entry : LocalEntry) (supabaseUserId : Option String)
      (online updateOk : Bool) (now : Nat)
  | deleteOp (id : Nat) (supabaseId : Option Nat) (supabaseUserId : Option String)
      (online deleteOk : Bool) (now : Nat)
  | listOp (localUserId : Nat) (supabaseUserId : Option String) (online fetchOk : Bool)
  | drainOp (localUserId : Nat) (supabaseUserId : String) (online : Bool)
      (ok : Nat → Bool) (now : Nat)
  | reconcileOp (localUserId : Nat) (supabaseUserId : String) (online : Bool)
      (okQueue okPush : Nat → Bool) (fetchOk : Bool) (now : Nat)
  | clearOp (localUserId : Nat)

/-- The state transformer of each engine operation. -/
def applyOp (op : EngineOp) (s : SyncState) : SyncState :=
  match op with
  | EngineOp.createOp entry lu su online insertOk now =>
    (createEntry s entry lu su online insertOk now).2
  | EngineOp.updateOp entry su online updateOk now =>
    updateEntry s entry su online updateOk now
  | EngineOp.deleteOp id sid su online deleteOk now =>
    deleteEntry s id sid su online deleteOk now
  | EngineOp.listOp lu su online fetchOk =>
    (getAllEntries s lu su online fetchOk).2
  | EngineOp.drainOp lu su online ok now =>
    processSyncQueue s lu su online ok now
  | EngineOp.reconcileOp lu su online okQ okP fetchOk now =>
    fullSync s lu su online okQ okP fetchOk now
  | EngineOp.clearOp lu =>
    clearLocalEntries s lu

/-- The record updateEntry puts locally: exactly the seven base fields the
source lists, so the stored sync metadata is dropped by the put. -/
def basePutRecord (e : LocalEntry) : LocalEntry :=
  { id := e.id
    userId := e.userId
    date := e.date
    amountPaid := e.amountPaid
    odometerReading := e.odometerReading
    fuelFilled := e.fuelFilled
    fuelStation := e.fuelStation }

/-- Whether processing a queue item reaches a remote call at all: the
guards of the three switch cases of processSyncQueue. -/
def replayAttempted (item : SyncQueueItem) : Bool :=
  match item.type with
  | SyncOpType.create => item.data.isSome && truthyNum item.localId
  | SyncOpType.update => item.data.isSome && truthyUuid item.supabaseId
  | SyncOpType.delete => truthyUuid item.supabaseId

/-- Whether processing a queue item reaches the removal at the bottom of
the loop body: either its remote call returned without throwing (`ok`), or
its guard failed and no remote call was made. -/
def itemSucceeds (item : SyncQueueItem) (ok : Bool) : Bool :=
  if replayAttempted item then ok else true

/-- The predicate removeFromSyncQueue applies when invoked for a processed
item: a stored entry is struck whenever a truthy localId of the processed
item equals its localId or a truthy supabaseId of the processed item
equals its supabaseId. -/
def removalHits (item e : SyncQueueItem) : Bool :=
  (truthyNum item.localId && e.localId == item.localId) ||
    (truthyUuid item.supabaseId && e.supabaseId == item.supabaseId)

/-- The local half of the sync invariant: every local record carrying a
supabaseId carries a non-null syncedAt. -/
def LocalSyncInv (store : LocalStore) : Prop :=
  ∀ e ∈ store.entries, e.supabaseId.isSome → e.syncedAt.isSome

/-- The remote half of the sync invariant: every remote row carries a
non-null synced_at (every insert this code issues stamps one). -/
def RemoteSyncInv (rs : RemoteState) : Prop :=
  ∀ r ∈ rs.rows, r.synced_at.isSome

/-- The inductive sync invariant. -/
def SyncInv (s : SyncState) : Prop :=
  LocalSyncInv s.store ∧ RemoteSyncInv s.remote

/-!  Concrete fixtures used by the concrete-input theorems below.  -/

/-- A concrete draft (the §8 scenario of the spec, with whole numbers). -/
def sampleDraft : Draft :=
  { date := "2026-02-18"
    amountPaid := 800
    odometerReading := 10250
    fuelFilled := 8
    fuelStation := "Shell" }

/-- The same data with the amount edited. -/
def editedDraft : Draft := { sampleDraft with amountPaid := 900 }

/-- A local record holding the sample draft, not yet linked remotely. -/
def sampleLocalEntry : LocalEntry :=
  { id := some 1
    userId := 1
    date := sampleDraft.date
    amountPaid := sampleDraft.amountPaid
    odometerReading := sampleDraft.odometerReading
    fuelFilled := sampleDraft.fuelFilled
    fuelStation := sampleDraft.fuelStation }

/-- The queued create item for that record. -/
def sampleCreateItem : SyncQueueItem :=
  { type := SyncOpType.create, localId := some 1, data := some sampleDraft, timestamp := 0 }

/-- An active remote row holding the sample draft data for owner u,
already inserted by a previous partial attempt. -/
def sampleActiveRow : RemoteRow :=
  { id := 1
    user_id := "u"
    date := sampleDraft.date
    amount_paid := sampleDraft.amountPaid
    odometer_reading := sampleDraft.odometerReading
    fuel_filled := sampleDraft.fuelFilled
    fuel_station := sampleDraft.fuelStation
    local_id := some 1
    is_deleted := false
    synced_at := some 0 }

/-- The same row soft-deleted (a cross-device deletion). -/
def sampleDeletedRow : RemoteRow :=
  { sampleActiveRow with local_id := none, is_deleted := true }

/-- C1 failing input: the create for local record 1 is still queued while
its remote counterpart already exists (crash between insert success and
queue removal). -/
def partialCreateState : SyncState :=
  { store := { entries := [sampleLocalEntry], nextId := 2 }
    queue := [sampleCreateItem]
    remote := { rows := [sampleActiveRow], nextId := 2 } }

/-- C3 failing input: local record 1 was created offline (create queued)
while the identity-matching remote row was soft-deleted on another
device. -/
def deletedRaceState : SyncState :=
  { store := { entries := [sampleLocalEntry], nextId := 2 }
    queue := [sampleCreateItem]
    remote := { rows := [sampleDeletedRow], nextId := 2 } }

/-- Two failed update items for the same record, sharing localId 1 and
supabaseId 7. -/
def firstUpdateItem : SyncQueueItem :=
  { type := SyncOpType.update, localId := some 1, supabaseId := some 7,
    data := some sampleDraft, timestamp := 0 }

/-- The second queued update for the same record. -/
def secondUpdateItem : SyncQueueItem :=
  { type := SyncOpType.update, localId := some 1, supabaseId := some 7,
    data := some editedDraft, timestamp := 1 }

/-- C2 counterexample input: a queue holding the two same-record update
items. -/
def sharedIdQueueState : SyncState :=
  { store := { entries := [], nextId := 1 }
    queue := [firstUpdateItem, secondUpdateItem]
    remote := { rows := [], nextId := 1 } }

/-- An oracle under which only the first remote replay succeeds. -/
def onlyFirstOk : Nat → Bool := fun i => i == 0

/-- C6 counterexample input: the sample record and its queued create, with
an empty remote store. -/
def pendingCreateState : SyncState :=
  { store := { entries := [sampleLocalEntry], nextId := 2 }
    queue := [sampleCreateItem]
    remote := { rows := [], nextId := 1 } }

/-- The offline local edit applied to the sample record before its create
ever synced: the amount becomes 900. -/
def editedLocalEntry : LocalEntry :=
  { sampleLocalEntry with amountPaid := 900 }

/-!  General helper lemmas.  -/

/-- An invariant preserved by every step of a fold holds of the result. -/
theorem foldl_inv {σ α : Type} (P : σ → Prop) (f : σ → α → σ) :
    ∀ (l : List α) (s : σ), (∀ t a, a ∈ l → P t → P (f t a)) → P s → P (l.foldl f s)
  | [], _, _, hs => hs
  | a :: l, s, h, hs =>
    foldl_inv P f l (f s a) (fun t b hb ht => h t b (List.mem_cons_of_mem a hb) ht)
      (h s a (List.mem_cons_self a l) hs)

/-- Membership in a sorted insertion. -/
theorem mem_insertByDateDesc (x r : RemoteRow) :
    ∀ l : List RemoteRow, x ∈ insertByDateDesc r l ↔ x = r ∨ x ∈ l
  | [] => by simp [insertByDateDesc]
  | a :: l => by
    unfold insertByDateDesc
    split
    · simp
    · rw [List.mem_cons, mem_insertByDateDesc x r l, List.mem_cons]
      tauto

/-- Sorting by date keeps exactly the same rows. -/
theorem mem_sortByDateDesc (x : RemoteRow) :
    ∀ l : List RemoteRow, x ∈ sortByDateDesc l ↔ x ∈ l := by
  intro l
  induction l with
  | nil => simp [sortByDateDesc]
  | cons a l ih =>
    unfold sortByDateDesc at ih ⊢
    rw [List.foldr_cons, mem_insertByDateDesc, ih, List.mem_cons]

/-- A row returned by maybeSingle belongs to the queried list. -/
theorem maybeSingle_mem (l : List RemoteRow) (x : RemoteRow) (h : maybeSingle l = some x) :
    x ∈ l := by
  rcases l with _ | ⟨a, _ | ⟨b, l⟩⟩
  · simp [maybeSingle] at h
  · simp [maybeSingle] at h
    subst h; simp
  · simp [maybeSingle] at h

/-!  Preservation lemmas for the synced-at invariant.  -/

theorem localSyncInv_addEntry (st : LocalStore) (e : LocalEntry)
    (h : LocalSyncInv st) (he : e.supabaseId.isSome → e.syncedAt.isSome) :
    LocalSyncInv (localDb.addEntry st e).2 := by
  intro x hx
  simp [localDb.addEntry] at hx
  rcases hx with hx | hx
  · exact h x hx
  · subst hx; simpa using he

theorem localSyncInv_putEntry (st : LocalStore) (e : LocalEntry)
    (h : LocalSyncInv st) (he : e.supabaseId.isSome → e.syncedAt.isSome) :
    LocalSyncInv (localDb.putEntry st e) := by
  intro x hx
  unfold localDb.putEntry at hx
  rcases hid : e.id with _ | i
  · rw [hid] at hx
    exact localSyncInv_addEntry st e h he x hx
  · rw [hid] at hx
    dsimp only at hx
    by_cases hc : (st.entries.any (fun y => y.id == some i)) = true
    · rw [if_pos hc] at hx
      simp at hx
      obtain ⟨y, hy, hxy⟩ := hx
      by_cases hyy : y.id = some i
      · rw [if_pos hyy] at hxy
        subst hxy; exact he
      · rw [if_neg hyy] at hxy
        subst hxy; exact h y hy
    · rw [if_neg hc] at hx
      simp at hx
      rcases hx with hx | hx
      · exact h x hx
      · subst hx; exact he

theorem localSyncInv_deleteEntry (st : LocalStore) (i : Nat) (h : LocalSyncInv st) :
    LocalSyncInv (localDb.deleteEntry st i) := by
  intro x hx
  exact h x (List.mem_of_mem_filter hx)

theorem localSyncInv_clearAllEntries (st : LocalStore) (u : Nat) (h : LocalSyncInv st) :
    LocalSyncInv (localDb.clearAllEntries st u) := by
  intro x hx
  exact h x (List.mem_of_mem_filter hx)

theorem localSyncInv_updateLocalWithSupabaseId (st : LocalStore) (lid sid : Nat)
    (sy : Option Nat) (h : LocalSyncInv st) (hs : sy.isSome) :
    LocalSyncInv (updateLocalWithSupabaseId st lid sid sy) := by
  unfold updateLocalWithSupabaseId
  split
  · exact localSyncInv_putEntry st _ h (fun _ => hs)
  · exact h

theorem remoteSyncInv_insertRow (rs : RemoteState) (d : RemoteDraft)
    (h : RemoteSyncInv rs) (hd : d.synced_at.isSome) :
    RemoteSyncInv (rs.insertRow d).2 := by
  intro r hr
  simp [RemoteState.insertRow] at hr
  rcases hr with hr | hr
  · exact h r hr
  · subst hr; simpa using hd

theorem remoteSyncInv_updateFields (rs : RemoteState) (rid : Nat) (uid : String)
    (d : Draft) (now : Nat) (h : RemoteSyncInv rs) :
    RemoteSyncInv (rs.updateFields rid uid d now) := by
  intro r hr
  simp [RemoteState.updateFields] at hr
  obtain ⟨y, hy, hxy⟩ := hr
  subst hxy
  split
  · simpa using h y hy
  · exact h y hy

theorem remoteSyncInv_softDelete (rs : RemoteState) (rid : Nat) (uid : String)
    (now : Nat) (h : RemoteSyncInv rs) :
    RemoteSyncInv (rs.softDelete rid uid now) := by
  intro r hr
  simp [RemoteState.softDelete] at hr
  obtain ⟨y, hy, hxy⟩ := hr
  subst hxy
  split
  · simpa using h y hy
  · exact h y hy

theorem syncInv_processItem (lu : Nat) (uid : String) (now : Nat) (s : SyncState)
    (item : SyncQueueItem) (ok : Bool) (h : SyncInv s) :
    SyncInv (processItem lu uid now s item ok) := by
  obtain ⟨hl, hr⟩ := h
  unfold processItem
  split
  · split
    · split
      · split
        · refine ⟨?_, ?_⟩
          · exact localSyncInv_updateLocalWithSupabaseId _ _ _ _ hl rfl
          · exact remoteSyncInv_insertRow _ _ hr rfl
        · exact ⟨hl, hr⟩
      · exact ⟨hl, hr⟩
    · exact ⟨hl, hr⟩
  · split
    · split
      · exact ⟨hl, remoteSyncInv_updateFields _ _ _ _ _ hr⟩
      · exact ⟨hl, hr⟩
    · exact ⟨hl, hr⟩
  · split
    · split
      · exact ⟨hl, remoteSyncInv_softDelete _ _ _ _ hr⟩
      · exact ⟨hl, hr⟩
    · exact ⟨hl, hr⟩

theorem syncInv_deleteMatchedLocal (localEntries : List LocalEntry) (t : SyncState)
    (de : RemoteRow) (ht : SyncInv t) : SyncInv (deleteMatchedLocal localEntries t de) := by
  obtain ⟨hl, hr⟩ := ht
  unfold deleteMatchedLocal
  dsimp only
  split
  · split
    · split
      · exact ⟨localSyncInv_deleteEntry _ _ hl, hr⟩
      · exact ⟨hl, hr⟩
    · exact ⟨hl, hr⟩
  · exact ⟨hl, hr⟩

theorem syncInv_syncDeletionsToLocal (s : SyncState) (del : List RemoteRow) (lu : Nat)
    (h : SyncInv s) : SyncInv (syncDeletionsToLocal s del lu) := by
  unfold syncDeletionsToLocal
  exact foldl_inv SyncInv _ del s
    (fun t de _ ht => syncInv_deleteMatchedLocal _ t de ht) h

theorem syncInv_pullRemoteEntry (ds : List (String × Int × Int × Int)) (lu : Nat)
    (t : SyncState) (re : RemoteRow) (hre : re.synced_at.isSome)
    (ht : SyncInv t) : SyncInv (pullRemoteEntry ds lu t re) := by
  obtain ⟨hl, hr⟩ := ht
  unfold pullRemoteEntry
  split
  · refine ⟨?_, hr⟩
    apply localSyncInv_putEntry _ _ hl
    intro _
    simpa using hre
  · split
    · refine ⟨?_, hr⟩
      apply localSyncInv_addEntry _ _ hl
      intro _
      simpa [supabaseToLocal] using hre
    · exact ⟨hl, hr⟩

theorem syncInv_syncToLocal (s : SyncState) (res : List RemoteRow) (lu : Nat)
    (uid : String) (hres : ∀ re ∈ res, re.synced_at.isSome)
    (h : SyncInv s) : SyncInv (syncToLocal s res lu uid) := by
  unfold syncToLocal
  exact foldl_inv SyncInv _ res s
    (fun t re hmem ht => syncInv_pullRemoteEntry _ lu t re (hres re hmem) ht) h

theorem syncInv_pushEntryStep (uid : String) (now : Nat) (t : SyncState)
    (entry : LocalEntry) (insOk : Bool) (ht : SyncInv t) :
    SyncInv (pushEntryStep uid now t entry insOk) := by
  obtain ⟨hl, hr⟩ := ht
  unfold pushEntryStep
  dsimp only
  split
  · split
    · split
      · exact ⟨localSyncInv_deleteEntry _ _ hl, hr⟩
      · exact ⟨hl, hr⟩
    · exact ⟨hl, hr⟩
  · split
    · next ex heq =>
      split
      · split
        · refine ⟨?_, hr⟩
          apply localSyncInv_updateLocalWithSupabaseId _ _ _ _ hl
          exact hr ex (List.mem_of_mem_filter (maybeSingle_mem _ _ heq))
        · exact ⟨hl, hr⟩
      · exact ⟨hl, hr⟩
    · split
      · split
        · split
          · exact ⟨localSyncInv_updateLocalWithSupabaseId _ _ _ _ hl rfl,
              remoteSyncInv_insertRow _ _ hr rfl⟩
          · exact ⟨hl, remoteSyncInv_insertRow _ _ hr rfl⟩
        · exact ⟨hl, remoteSyncInv_insertRow _ _ hr rfl⟩
      · exact ⟨hl, hr⟩

theorem syncInv_processSyncQueue (s : SyncState) (lu : Nat) (uid : String)
    (online : Bool) (ok : Nat → Bool) (now : Nat) (h : SyncInv s) :
    SyncInv (processSyncQueue s lu uid online ok now) := by
  unfold processSyncQueue
  split
  · exact h
  · dsimp only
    split
    · exact h
    · exact foldl_inv SyncInv _ s.queue.enum s
        (fun t p _ ht => syncInv_processItem lu uid now t p.2 (ok p.1) ht) h

theorem syncInv_pushUnsyncedEntries (s : SyncState) (lu : Nat) (uid : String)
    (insOk : Nat → Bool) (now : Nat) (h : SyncInv s) :
    SyncInv (pushUnsyncedEntries s lu uid insOk now) := by
  unfold pushUnsyncedEntries
  exact foldl_inv SyncInv _ _ s
    (fun t p _ ht => syncInv_pushEntryStep uid now t p.2 (insOk p.1) ht) h

theorem syncInv_getAllEntries (s : SyncState) (lu : Nat) (su : Option String)
    (online fetchOk : Bool) (h : SyncInv s) :
    SyncInv (getAllEntries s lu su online fetchOk).2 := by
  unfold getAllEntries
  split
  · split
    · dsimp only
      apply syncInv_syncToLocal
      · intro re hre
        rw [mem_sortByDateDesc] at hre
        exact h.2 re (List.mem_of_mem_filter hre)
      · split
        · exact syncInv_syncDeletionsToLocal s _ lu h
        · exact h
    · exact h
  · exact h

theorem syncInv_createEntry (s : SyncState) (d : Draft) (lu : Nat) (su : Option String)
    (online insertOk : Bool) (now : Nat) (h : SyncInv s) :
    SyncInv (createEntry s d lu su online insertOk now).2 := by
  obtain ⟨hl, hr⟩ := h
  have hadd : LocalSyncInv (localDb.addEntry s.store
      { userId := lu, date := d.date, amountPaid := d.amountPaid,
        odometerReading := d.odometerReading, fuelFilled := d.fuelFilled,
        fuelStation := d.fuelStation }).2 :=
    localSyncInv_addEntry _ _ hl (by intro hx; simp at hx)
  unfold createEntry
  dsimp only
  split
  · split
    · exact ⟨localSyncInv_updateLocalWithSupabaseId _ _ _ _ hadd rfl,
        remoteSyncInv_insertRow _ _ hr rfl⟩
    · exact ⟨hadd, hr⟩
  · split
    · exact ⟨hadd, hr⟩
    · exact ⟨hadd, hr⟩

theorem syncInv_updateEntry (s : SyncState) (e : LocalEntry) (su : Option String)
    (online updateOk : Bool) (now : Nat) (h : SyncInv s) :
    SyncInv (updateEntry s e su online updateOk now) := by
  obtain ⟨hl, hr⟩ := h
  have hput : LocalSyncInv (localDb.updateEntry s.store (basePutRecord e)) :=
    localSyncInv_putEntry _ _ hl (by intro hx; simp [basePutRecord] at hx)
  unfold updateEntry
  dsimp only
  split
  · split
    · exact ⟨hput, remoteSyncInv_updateFields _ _ _ _ _ hr⟩
    · exact ⟨hput, hr⟩
  · split
    · exact ⟨hput, hr⟩
    · exact ⟨hput, hr⟩

theorem syncInv_deleteEntry (s : SyncState) (i : Nat) (sid : Option Nat)
    (su : Option String) (online deleteOk : Bool) (now : Nat) (h : SyncInv s) :
    SyncInv (deleteEntry s i sid su online deleteOk now) := by
  obtain ⟨hl, hr⟩ := h
  have hdel : LocalSyncInv (localDb.deleteEntry s.store i) := localSyncInv_deleteEntry _ _ hl
  unfold deleteEntry
  dsimp only
  split
  · split
    · exact ⟨hdel, remoteSyncInv_softDelete _ _ _ _ hr⟩
    · exact ⟨hdel, hr⟩
  · split
    · exact ⟨hdel, hr⟩
    · exact ⟨hdel, hr⟩

theorem syncInv_fullSync (s : SyncState) (lu : Nat) (uid : String) (online : Bool)
    (okQ okP : Nat → Bool) (fetchOk : Bool) (now : Nat) (h : SyncInv s) :
    SyncInv (fullSync s lu uid online okQ okP fetchOk now) := by
  unfold fullSync
  split
  · exact h
  · exact syncInv_getAllEntries _ _ _ _ _
      (syncInv_pushUnsyncedEntries _ _ _ _ _
        (syncInv_processSyncQueue _ _ _ _ _ _ h))

theorem syncInv_clearLocalEntries (s : SyncState) (lu : Nat) (h : SyncInv s) :
    SyncInv (clearLocalEntries s lu) :=
  ⟨localSyncInv_clearAllEntries _ _ h.1, h.2⟩

/-!  Queue characterization lemmas for drain semantics.  -/

/-- The queue after one processSyncQueue iteration: a successful (or
skipped) replay filters the stored queue by the removal predicate of the
processed item; a thrown replay leaves it unchanged. -/
theorem processItem_queue (lu : Nat) (uid : String) (now : Nat) (s : SyncState)
    (item : SyncQueueItem) (ok : Bool) :
    (processItem lu uid now s item ok).queue =
      if itemSucceeds item ok then s.queue.filter (fun e => !removalHits item e)
      else s.queue := by
  cases htype : item.type
  · rcases hd : item.data with _ | d
    · simp [processItem, itemSucceeds, replayAttempted, removalHits, removeFromSyncQueue,
        htype, hd]
    · rcases hl : item.localId with _ | lid
      · simp [processItem, itemSucceeds, replayAttempted, removalHits, removeFromSyncQueue,
          truthyNum, htype, hd, hl]
      · by_cases hz : lid = 0
        · subst hz
          simp [processItem, itemSucceeds, replayAttempted, removalHits, removeFromSyncQueue,
            truthyNum, htype, hd, hl]
        · cases ok <;>
            simp [processItem, itemSucceeds, replayAttempted, removalHits, removeFromSyncQueue,
              truthyNum, htype, hd, hl, hz]
  · rcases hd : item.data with _ | d
    · simp [processItem, itemSucceeds, replayAttempted, removalHits, removeFromSyncQueue,
        htype, hd]
    · rcases hs : item.supabaseId with _ | sid
      · simp [processItem, itemSucceeds, replayAttempted, removalHits, removeFromSyncQueue,
          truthyUuid, htype, hd, hs]
      · cases ok <;>
          simp [processItem, itemSucceeds, replayAttempted, removalHits, removeFromSyncQueue,
            truthyUuid, htype, hd, hs]
  · rcases hs : item.supabaseId with _ | sid
    · simp [processItem, itemSucceeds, replayAttempted, removalHits, removeFromSyncQueue,
        truthyUuid, htype, hs]
    · cases ok <;>
        simp [processItem, itemSucceeds, replayAttempted, removalHits, removeFromSyncQueue,
          truthyUuid, htype, hs]

/-- The queue after folding processItem over an indexed snapshot: exactly
the stored entries not struck by any successfully processed item. -/
theorem drainFold_queue (lu : Nat) (uid : String) (ok : Nat → Bool) (now : Nat) :
    ∀ (l : List (Nat × SyncQueueItem)) (t : SyncState),
      ((l.foldl (fun acc p => processItem lu uid now acc p.2 (ok p.1)) t)).queue =
        t.queue.filter
          (fun e => !(l.any (fun p => itemSucceeds p.2 (ok p.1) && removalHits p.2 e)))
  | [], t => by simp
  | p :: l, t => by
    rw [List.foldl_cons, drainFold_queue lu uid ok now l, processItem_queue]
    by_cases hsucc : itemSucceeds p.2 (ok p.1) = true
    · rw [if_pos hsucc, List.filter_filter]
      apply List.filter_congr
      intro e _
      simp [hsucc, Bool.not_or, Bool.and_comm]
    · rw [if_neg hsucc]
      apply List.filter_congr
      intro e _
      have : itemSucceeds p.2 (ok p.1) = false := by
        cases h : itemSucceeds p.2 (ok p.1)
        · rfl
        · exact absurd h hsucc
      simp [this]

/-!  Claim theorems.  -/

/-- Claim C1.  The claim states that replaying a queued create whose
remote counterpart was already inserted performs an identity-key match
against the existing non-deleted remote records before inserting, so that
draining never produces two remote records with the same identity key for
the same owner.  The code contradicts this: the create case of
processSyncQueue inserts the enqueued payload unconditionally, so at the
failing input (a queued create whose remote counterpart already exists,
the crash-between-insert-and-removal scenario) the drain leaves two
active remote rows with the same identity key for owner u and removes the
queue entry. -/
theorem c1_drain_duplicates_identity_key :
    ((processSyncQueue partialCreateState 1 "u" true (fun _ => true) 5).remote.rows.filter
      (fun r => r.user_id == "u" && !r.is_deleted && rowKey r == rowKey sampleActiveRow)).length
        = 2 ∧
    (processSyncQueue partialCreateState 1 "u" true (fun _ => true) 5).queue = [] := by
  decide

/-- Claim C2 counterexample.  The claim states a queue entry is removed if
and only if its own replay succeeds, and that no other entry sharing the
same localId or remoteId is removed by another entry's success.  At this
input the queue holds two update items for the same record (localId 1,
supabaseId 7); the first replay succeeds and the second throws, yet the
drained queue is empty: the second entry was removed by the first entry's
success even though its own replay failed. -/
theorem c2_shared_id_removal_counterexample :
    (processSyncQueue sharedIdQueueState 1 "u" true onlyFirstOk 5).queue = [] ∧
    itemSucceeds secondUpdateItem (onlyFirstOk 1) = false ∧
    secondUpdateItem ∈ sharedIdQueueState.queue := by
  decide

/-- Claim C2 as amended.  drainQueue iterates a snapshot of the queue in
insertion order and, whenever the replay of an item returns without
throwing (or its guard makes no remote call at all), removes from the
stored queue every entry whose localId matches a truthy localId of that
item or whose supabaseId matches a truthy supabaseId of that item; a
thrown replay leaves the stored queue unchanged and processing continues.
Hence the final queue is exactly the snapshot filtered by the removal
predicates of the successfully processed items, so an entry sharing ids
with another entry can be removed by that other entry's success. -/
theorem c2_drain_removal_semantics (s : SyncState) (lu : Nat) (uid : String)
    (ok : Nat → Bool) (now : Nat) :
    (processSyncQueue s lu uid true ok now).queue =
      s.queue.filter
        (fun e => !(s.queue.enum.any
          (fun p => itemSucceeds p.2 (ok p.1) && removalHits p.2 e))) := by
  have h := drainFold_queue lu uid ok now s.queue.enum s
  unfold processSyncQueue
  split
  · simp at *
  · dsimp only
    split
    · next hzero =>
      have hq : s.queue = [] := by
        rcases hq : s.queue with _ | ⟨a, l⟩
        · rfl
        · rw [hq] at hzero; simp at hzero
      rw [hq]
      simp
    · exact h

/-- Claim C3.  The claim states that a local record with no remoteId that
matches a soft-deleted remote record by identity key is deleted locally by
reconciliation and never inserted into the remote store.  The code
contradicts this whenever the record also has a pending create queue
entry, which is exactly what offline creation produces: fullSync first
drains the queue, whose create replay inserts without any identity check,
resurrecting the record remotely (one active identity-matching row
afterwards) and leaving the local record in place, now linked to the new
row (supabaseId 2). -/
theorem c3_deletion_race_resurrects :
    ((fullSync deletedRaceState 1 "u" true (fun _ => true) (fun _ => true) true 5).remote.rows.filter
      (fun r => r.user_id == "u" && !r.is_deleted && rowKey r == rowKey sampleDeletedRow)).length
        = 1 ∧
    ((fullSync deletedRaceState 1 "u" true (fun _ => true) (fun _ => true) true 5).store.entries.map
      (fun e => (e.id, e.supabaseId))) = [(some 1, some 2)] := by
  decide

/-- Claim C4.  Offline round-trip from the empty initial state: a create
while offline with a truthy remote owner id returns a record with localId
1 and no remoteId, and leaves exactly the one create queue entry for that
localId; a subsequent online fullSync with all remote calls succeeding
drains the queue to empty and leaves exactly one local record, which
carries the remoteId and a non-null syncedAt, and exactly one matching
remote row. -/
theorem c4_offline_roundtrip (d : Draft) (lu : Nat) (uid : String) (t1 t2 : Nat)
    (h : uid ≠ "") :
    (createEntry emptyState d lu (some uid) false true t1).1.id = some 1 ∧
    (createEntry emptyState d lu (some uid) false true t1).1.supabaseId = none ∧
    (createEntry emptyState d lu (some uid) false true t1).1.syncedAt = none ∧
    (createEntry emptyState d lu (some uid) false true t1).2.queue =
      [{ type := SyncOpType.create, localId := some 1, data := some d, timestamp := t1 }] ∧
    (fullSync (createEntry emptyState d lu (some uid) false true t1).2 lu uid true
        (fun _ => true) (fun _ => true) true t2).queue = [] ∧
    (fullSync (createEntry emptyState d lu (some uid) false true t1).2 lu uid true
        (fun _ => true) (fun _ => true) true t2).store.entries =
      [{ id := some 1, userId := lu, date := d.date, amountPaid := d.amountPaid,
         odometerReading := d.odometerReading, fuelFilled := d.fuelFilled,
         fuelStation := d.fuelStation, supabaseId := some 1, syncedAt := some t2 }] ∧
    (fullSync (createEntry emptyState d lu (some uid) false true t1).2 lu uid true
        (fun _ => true) (fun _ => true) true t2).remote.rows =
      [{ id := 1, user_id := uid, date := d.date, amount_paid := d.amountPaid,
         odometer_reading := d.odometerReading, fuel_filled := d.fuelFilled,
         fuel_station := d.fuelStation, local_id := some 1, is_deleted := false,
         synced_at := some t2 }] := by
  simp [createEntry, emptyState, localDb.addEntry, truthyStr, fullSync, processSyncQueue,
    processItem, removeFromSyncQueue, truthyNum, truthyUuid, localToSupabase,
    RemoteState.insertRow, updateLocalWithSupabaseId, localDb.putEntry, pushUnsyncedEntries,
    pushEntryStep, localDb.getAllEntries, getAllEntries, sortByDateDesc, insertByDateDesc,
    syncDeletionsToLocal, syncToLocal, pullRemoteEntry, deleteMatchedLocal, supabaseToLocal,
    updateLocalEntryFull, createLocalFromRemote, findLocalBySupabaseId, maybeSingle, rowKey,
    identityKey, draftOf, h]

/-- Witness for C4 at the concrete sample draft. -/
theorem c4_offline_roundtrip_witness :
    ("u" : String) ≠ "" ∧
    (createEntry emptyState sampleDraft 1 (some "u") false true 0).1.id = some 1 :=
  ⟨by decide, (c4_offline_roundtrip sampleDraft 1 "u" 0 7 (by decide)).1⟩

/-- Claim C5.  Remote failures are fully absorbed: whenever a create,
update or delete addresses the remote store (truthy owner id; for update
and delete also a present supabaseId) and the remote attempt is offline or
throws, the operation still performs its local mutation, appends exactly
one corresponding sync-queue item instead of raising, returns its normal
result, and leaves the remote store untouched.  In this embedding local
store operations are total, so no failure at all reaches the caller,
matching the contract that only local StorageErrors are caller-visible. -/
theorem c5_remote_failure_absorbed (s : SyncState) (d : Draft) (e : LocalEntry)
    (lid rid : Nat) (lu : Nat) (uid : String) (t : Nat) (online rok : Bool)
    (huid : uid ≠ "") (hfail : online = false ∨ rok = false) :
    (createEntry s d lu (some uid) online rok t =
      ({ id := some s.store.nextId
         userId := lu
         date := d.date
         amountPaid := d.amountPaid
         odometerReading := d.odometerReading
         fuelFilled := d.fuelFilled
         fuelStation := d.fuelStation },
       { store := (localDb.addEntry s.store
           { userId := lu
             date := d.date
             amountPaid := d.amountPaid
             odometerReading := d.odometerReading
             fuelFilled := d.fuelFilled
             fuelStation := d.fuelStation }).2
         queue := s.queue ++
           [{ type := SyncOpType.create, localId := some s.store.nextId, data := some d,
              timestamp := t }]
         remote := s.remote })) ∧
    (e.supabaseId = some rid →
      updateEntry s e (some uid) online rok t =
        { store := localDb.updateEntry s.store
            { id := e.id
              userId := e.userId
              date := e.date
              amountPaid := e.amountPaid
              odometerReading := e.odometerReading
              fuelFilled := e.fuelFilled
              fuelStation := e.fuelStation }
          queue := s.queue ++
            [{ type := SyncOpType.update, localId := e.id, supabaseId := some rid,
               data := some (draftOf e), timestamp := t }]
          remote := s.remote }) ∧
    (deleteEntry s lid (some rid) (some uid) online rok t =
      { store := localDb.deleteEntry s.store lid
        queue := s.queue ++
          [{ type := SyncOpType.delete, localId := some lid, supabaseId := some rid,
             timestamp := t }]
        remote := s.remote }) := by
  rcases hfail with h | h <;> subst h
  · refine ⟨?_, fun he => ?_, ?_⟩
    · simp [createEntry, localDb.addEntry, truthyStr, huid]
    · simp [updateEntry, truthyStr, truthyUuid, huid, he]
    · simp [deleteEntry, truthyStr, truthyUuid, huid]
  · cases online
    · refine ⟨?_, fun he => ?_, ?_⟩
      · simp [createEntry, localDb.addEntry, truthyStr, huid]
      · simp [updateEntry, truthyStr, truthyUuid, huid, he]
      · simp [deleteEntry, truthyStr, truthyUuid, huid]
    · refine ⟨?_, fun he => ?_, ?_⟩
      · simp [createEntry, localDb.addEntry, truthyStr, huid]
      · simp [updateEntry, truthyStr, truthyUuid, huid, he]
      · simp [deleteEntry, truthyStr, truthyUuid, huid]

/-- Witness for C5: the offline delete instance at a concrete state. -/
theorem c5_remote_failure_absorbed_witness :
    (("u" : String) ≠ "" ∧ ((false : Bool) = false ∨ (true : Bool) = false)) ∧
    deleteEntry emptyState 1 (some 7) (some "u") false true 0 =
      { store := localDb.deleteEntry emptyState.store 1
        queue := emptyState.queue ++
          [{ type := SyncOpType.delete, localId := some 1, supabaseId := some 7,
             timestamp := 0 }]
        remote := emptyState.remote } :=
  ⟨⟨by decide, Or.inl rfl⟩,
    (c5_remote_failure_absorbed emptyState sampleDraft sampleLocalEntry 1 7 1 "u" 0 false true
      (by decide) (Or.inl rfl)).2.2⟩

/-- Claim C6 counterexample.  The claim states that the pending create
entry's eventual replay reads the record's current local state, so a
later edit reaches the remote store.  At this input the record was edited
locally from amount 800 to 900 while its create (payload amount 800) was
still queued; the edit creates no new queue entry and the local record
reads 900, yet the drained replay inserts the enqueue-time payload: the
remote row carries amount 800, not the current local 900. -/
theorem c6_stale_payload_counterexample :
    (updateEntry pendingCreateState editedLocalEntry (some "u") false true 4).queue =
      pendingCreateState.queue ∧
    ((updateEntry pendingCreateState editedLocalEntry (some "u") false true 4).store.entries.map
      (fun e => e.amountPaid)) = [900] ∧
    ((processSyncQueue (updateEntry pendingCreateState editedLocalEntry (some "u") false true 4)
        1 "u" true (fun _ => true) 6).remote.rows.map (fun r => r.amount_paid)) = [800] := by
  decide

/-- Claim C6 as amended.  An update of a record with no remoteId only puts
the base record locally and creates no queue entry; the pending create
entry's replay inserts the payload captured at enqueue time, not the
record's current local state, so a later edit does not reach the remote
store through the replay; an update that fails remotely enqueues an item
carrying the remoteId (alongside the localId), and the replay of an
update item addresses the remote store by that remoteId. -/
theorem c6_update_absorption_amended :
    (∀ (s : SyncState) (e : LocalEntry) (su : Option String) (online rok : Bool) (t : Nat),
      e.supabaseId = none →
      updateEntry s e su online rok t =
        { s with store := localDb.updateEntry s.store (basePutRecord e) }) ∧
    (∀ (lu : Nat) (uid : String) (now : Nat) (s : SyncState) (item : SyncQueueItem)
        (d : Draft) (lid : Nat),
      item.type = SyncOpType.create → item.data = some d → item.localId = some lid →
      lid ≠ 0 →
      (processItem lu uid now s item true).remote.rows =
        s.remote.rows ++
          [{ id := s.remote.nextId
             user_id := uid
             date := d.date
             amount_paid := d.amountPaid
             odometer_reading := d.odometerReading
             fuel_filled := d.fuelFilled
             fuel_station := d.fuelStation
             local_id := some lid
             is_deleted := false
             synced_at := some now
             updated_at := none }]) ∧
    (∀ (s : SyncState) (e : LocalEntry) (uid : String) (rid : Nat) (online rok : Bool) (t : Nat),
      uid ≠ "" → e.supabaseId = some rid → (online = false ∨ rok = false) →
      (updateEntry s e (some uid) online rok t).queue =
        s.queue ++
          [{ type := SyncOpType.update, localId := e.id, supabaseId := some rid,
             data := some (draftOf e), timestamp := t }]) ∧
    (∀ (lu : Nat) (uid : String) (now : Nat) (s : SyncState) (item : SyncQueueItem)
        (d : Draft) (sid : Nat),
      item.type = SyncOpType.update → item.data = some d → item.supabaseId = some sid →
      (processItem lu uid now s item true).remote = s.remote.updateFields sid uid d now) := by
  refine ⟨?_, ?_, ?_, ?_⟩
  · intro s e su online rok t he
    simp [updateEntry, basePutRecord, truthyUuid, he]
  · intro lu uid now s item d lid ht hd hl hnz
    simp [processItem, ht, hd, hl, hnz, RemoteState.insertRow, localToSupabase]
  · intro s e uid rid online rok t huid he hfail
    rcases hfail with h | h <;> subst h
    · simp [updateEntry, truthyStr, truthyUuid, huid, he]
    · cases online <;> simp [updateEntry, truthyStr, truthyUuid, huid, he]
  · intro lu uid now s item d sid ht hd hs
    simp [processItem, ht, hd, hs]

/-- Witness for the amended C6: the no-remoteId update at a concrete
state. -/
theorem c6_update_absorption_amended_witness :
    sampleLocalEntry.supabaseId = none ∧
    updateEntry emptyState sampleLocalEntry none false true 0 =
      { emptyState with
          store := localDb.updateEntry emptyState.store (basePutRecord sampleLocalEntry) } :=
  ⟨rfl, c6_update_absorption_amended.1 emptyState sampleLocalEntry none false true 0 rfl⟩

/-- Claim C7.  List fallback: whenever the connectivity predicate is
false, the remote owner id is absent or falsy, or the remote fetch
throws, getAllEntries returns exactly the local records of this owner
with soft-deleted ones excluded and leaves the state, in particular the
local store, unchanged. -/
theorem c7_list_fallback (s : SyncState) (lu : Nat) (su : Option String)
    (online fetchOk : Bool)
    (h : online = false ∨ truthyStr su = false ∨ fetchOk = false) :
    getAllEntries s lu su online fetchOk =
      ((localDb.getAllEntries s.store lu).filter (fun e => !e.isDeleted), s) := by
  match su with
  | none => simp [getAllEntries]
  | some uid =>
    rcases h with h | h | h
    · simp [getAllEntries, h]
    · simp [truthyStr] at h
      simp [getAllEntries, h]
    · simp [getAllEntries, h]

/-- Witness for C7: the offline case at a concrete state. -/
theorem c7_list_fallback_witness :
    ((false : Bool) = false ∨ truthyStr (some "u") = false ∨ (true : Bool) = false) ∧
    getAllEntries emptyState 1 (some "u") false true =
      ((localDb.getAllEntries emptyState.store 1).filter (fun e => !e.isDeleted), emptyState) :=
  ⟨Or.inl rfl, c7_list_fallback emptyState 1 (some "u") false true (Or.inl rfl)⟩

/-- Claim C8.  Invariant: every operation of the sync engine preserves
the property that every local record carrying a remoteId carries a
non-null syncedAt (together with the remote half of the inductive
invariant, that every remote row carries a non-null synced-at, which
every insert this code issues establishes); the syncedAt is stamped in
the same local write that stores the remoteId taken from the remote
accept response. -/
theorem c8_synced_at_invariant (op : EngineOp) (s : SyncState) (h : SyncInv s) :
    SyncInv (applyOp op s) := by
  cases op with
  | createOp d lu su online insertOk now =>
    exact syncInv_createEntry s d lu su online insertOk now h
  | updateOp e su online updateOk now => exact syncInv_updateEntry s e su online updateOk now h
  | deleteOp i sid su online deleteOk now =>
    exact syncInv_deleteEntry s i sid su online deleteOk now h
  | listOp lu su online fetchOk => exact syncInv_getAllEntries s lu su online fetchOk h
  | drainOp lu su online ok now => exact syncInv_processSyncQueue s lu su online ok now h
  | reconcileOp lu su online okQ okP fetchOk now =>
    exact syncInv_fullSync s lu su online okQ okP fetchOk now h
  | clearOp lu => exact syncInv_clearLocalEntries s lu h

/-- Witness for C8 at the empty state and a concrete reconcile. -/
theorem c8_synced_at_invariant_witness :
    SyncInv emptyState ∧
    SyncInv (applyOp (EngineOp.reconcileOp 1 "u" true (fun _ => true) (fun _ => true) true 5)
      emptyState) :=
  have h : SyncInv emptyState :=
    ⟨by intro e he _; simp [emptyState] at he, by intro r hr; simp [emptyState] at hr⟩
  ⟨h, c8_synced_at_invariant
    (EngineOp.reconcileOp 1 "u" true (fun _ => true) (fun _ => true) true 5) emptyState h⟩

/-- Claim C9.  Sign-out frame: clearAll removes exactly the records of
the signed-out owner from the local store (so the owner's view becomes
empty), writes an empty sync queue, and leaves the owner-identity map
untouched, so a later sign-in by the same remote owner with a truthy
mapped id resolves to the same local owner id without a map write. -/
theorem c9_signout_frame (app : AppState) (lu : Nat) :
    (signOutClear app lu).sync.store.entries =
      app.sync.store.entries.filter (fun e => !(e.userId == lu)) ∧
    localDb.getAllEntries (signOutClear app lu).sync.store lu = [] ∧
    (signOutClear app lu).sync.queue = [] ∧
    (signOutClear app lu).userMap = app.userMap ∧
    (∀ (sid : String) (v newId : Nat), lookupUserMap app.userMap sid = some v → v ≠ 0 →
      getOrCreateLocalUserId (signOutClear app lu).userMap sid newId = (v, app.userMap)) := by
  refine ⟨rfl, ?_, rfl, rfl, ?_⟩
  · simp [localDb.getAllEntries, signOutClear, clearLocalEntries, localDb.clearAllEntries,
      List.filter_filter]
  · intro sid v newId hv hnz
    simp [signOutClear, getOrCreateLocalUserId, hv, hnz]

/-- Witness for C9 at a concrete application state with a mapped owner. -/
theorem c9_signout_frame_witness :
    lookupUserMap [("u", 5)] "u" = some 5 ∧ (5 : Nat) ≠ 0 ∧
    getOrCreateLocalUserId (signOutClear { sync := emptyState, userMap := [("u", 5)] } 1).userMap
      "u" 99 = (5, [("u", 5)]) :=
  ⟨rfl, by decide,
    (c9_signout_frame { sync := emptyState, userMap := [("u", 5)] } 1).2.2.2.2 "u" 5 99 rfl
      (by decide)⟩

/-- Claim C10 counterexample.  The claim states that for every stored
queue text the read returns the parsed entry list when the text is valid
and the empty list otherwise, making every queue operation total.  Stored
text that is valid JSON but not an array (for example the text 123)
refutes both parts: getSyncQueue returns that non-array value unchecked
rather than the empty list, pushing onto it throws a TypeError, and the
drain iteration over it throws as well. -/
theorem c10_nonarray_counterexample :
    getSyncQueueRaw QueueText.jsonOther = JsQueueVal.nonArray ∧
    getSyncQueueRaw QueueText.jsonOther ≠ JsQueueVal.list [] ∧
    addToSyncQueueRaw QueueText.jsonOther sampleCreateItem = none ∧
    drainSnapshotRaw QueueText.jsonOther = none := by
  decide

/-- Claim C10 as amended.  Reading the sync queue never throws: a missing
key, the empty string, and text on which JSON.parse throws all yield the
empty list, and text holding a serialized item array yields that array,
so enqueueing and draining are total on those storage contents; but text
parsing to a non-array JSON value is returned as is, and enqueueing onto
it throws, so the queue operations are not total over arbitrary stored
text. -/
theorem c10_queue_read_total_amended :
    getSyncQueueRaw QueueText.absent = JsQueueVal.list [] ∧
    getSyncQueueRaw QueueText.emptyText = JsQueueVal.list [] ∧
    getSyncQueueRaw QueueText.malformed = JsQueueVal.list [] ∧
    (∀ items, getSyncQueueRaw (QueueText.jsonList items) = JsQueueVal.list items) ∧
    (∀ item items, addToSyncQueueRaw (QueueText.jsonList items) item =
      some (QueueText.jsonList (items ++ [item]))) ∧
    (∀ items, drainSnapshotRaw (QueueText.jsonList items) = some items) ∧
    (∀ item, addToSyncQueueRaw QueueText.jsonOther item = none) :=
  ⟨rfl, rfl, rfl, fun _ => rfl, fun _ _ => rfl, fun _ => rfl, fun _ => rfl⟩
